import Mathlib

/-!
Shallow embedding of the infinite-adventure client (src/App.tsx,
src/services/gemini.ts, src/types.ts) and proofs about its turn logic.

The stateful React component is modelled as an explicit state machine:
`AppState` carries the hook state (`loading`, `gameState`, `storyLog`,
`currentChoices`) and `runTurn` is one complete execution of
`handleAction` (the `await` on the backend call is resolved by an
explicit `StoryCallOutcome` input).  JavaScript `Set` semantics are
modelled by duplicate-free lists in insertion order, JavaScript
truthiness of strings (`result.new_quest || prev.currentQuest`) by an
explicit empty-string test, and `Date.now()` by `Nat` inputs supplied
with each turn.
-/

/-- The `GameState` record from src/types.ts. -/
structure GameState where
  inventory : List String
  currentQuest : String
  health : Nat
  location : String
deriving DecidableEq

/-- The `StorySegment` record from src/types.ts.  The optional `isUser` flag is a
`Bool` (absent = `false`, matching JavaScript truthiness in
`.filter(s => !s.isUser)`). -/
structure StorySegment where
  id : String
  text : String
  imagePrompt : Option String
  imageUrl : Option String
  choices : List String
  isUser : Bool
  timestamp : Nat
deriving DecidableEq

/-- The structured JSON payload of a narrative call (the `storySchema`
of src/services/gemini.ts). -/
structure NarrativeResult where
  narrative : String
  inventory_add : List String
  inventory_remove : List String
  new_quest : Option String
  image_prompt : String
  suggested_choices : List String
deriving DecidableEq

/-- The `ImageSize` type from src/types.ts. -/
inductive ImageSize where
  | size1K
  | size2K
  | size4K
deriving DecidableEq

/-! ## JavaScript `Set` semantics (App.tsx lines 94-104)

`new Set(prev.inventory)` builds a duplicate-free list in insertion
order; `add` appends when absent; `delete` removes the element;
`Array.from` reads the elements back in insertion order. -/

/-- JavaScript `Set.prototype.add`: append `x` unless already present. -/
def setAdd (s : List String) (x : String) : List String :=
  if x ∈ s then s else s ++ [x]

/-- JavaScript `Set.prototype.delete`: remove `x`. -/
def setDelete (s : List String) (x : String) : List String :=
  s.filter (fun y => y ≠ x)

/-- JavaScript `new Set(l)`: insert the elements of `l` in order. -/
def toSet (l : List String) : List String :=
  l.foldl setAdd []

/-- The inventory merge of `handleAction` step 3 (App.tsx lines 94-101):
build a `Set` from the previous inventory, apply every `inventory_add`,
then apply every `inventory_remove`, and read the result back. -/
def applyInventoryDelta (inv add remove : List String) : List String :=
  List.foldl setDelete (List.foldl setAdd (toSet inv) add) remove

/-- The quest merge `result.new_quest || prev.currentQuest` (App.tsx
line 102): JavaScript `||` falls back on `null` and also on the falsy
empty string. -/
def applyQuest (newQuest : Option String) (current : String) : String :=
  match newQuest with
  | none => current
  | some q => if q = "" then current else q

/-! ## Backend client model (src/services/gemini.ts) -/

/-- How one `generateStorySegment` round trip can resolve: the three
failure modes caught by the `try`/`catch` (request rejection, missing
`response.text`, `JSON.parse` failure) or a successfully parsed payload. -/
inductive StoryCallOutcome where
  | networkError
  | missingText
  | parseError
  | parsed (result : NarrativeResult)
deriving DecidableEq

/-- The fixed fallback payload returned from the `catch` block of
`generateStorySegment` (src/services/gemini.ts lines 98-105). -/
def fallbackResult : NarrativeResult :=
  { narrative := "The mists of uncertainty cloud your vision... (AI Generation Error, please try again)."
    inventory_add := []
    inventory_remove := []
    new_quest := none
    image_prompt := "A foggy void of uncertainty."
    suggested_choices := ["Try again"] }

/-- Function `generateStorySegment` (src/services/gemini.ts lines 49-107),
abstracted over how the backend round trip resolves: a parsed payload is
returned as is, every failure path lands in the `catch` block and yields
`fallbackResult`. -/
def generateStorySegment (outcome : StoryCallOutcome) : NarrativeResult :=
  match outcome with
  | .parsed r => r
  | _ => fallbackResult

/-- The slice `history.slice(-6)` inside `generateStorySegment`
(src/services/gemini.ts line 70): the context actually embedded in the
prompt. -/
def lastN (n : Nat) (l : List α) : List α :=
  l.drop (l.length - n)

/-- The history truncation applied inside the backend call before the
strings are joined into the prompt (src/services/gemini.ts line 70). -/
def contextHistory (history : List String) : List String :=
  lastN 6 history

/-! ## Image call model (src/services/gemini.ts lines 113-147) -/

/-- An inline image payload (`part.inlineData`). -/
structure InlineData where
  mimeType : String
  data : String
deriving DecidableEq

/-- One element of `response.candidates[0].content.parts`. -/
inductive ResponsePart where
  | textPart (text : String)
  | dataPart (d : InlineData)
deriving DecidableEq

/-- How one `generateSceneImage` round trip can resolve: a caught
failure, or a response carrying a (possibly empty) list of parts
(`response.candidates?.[0]?.content?.parts || []`). -/
inductive ImageCallOutcome where
  | failure
  | response (parts : List ResponsePart)
deriving DecidableEq

/-- The `for`-loop of `generateSceneImage`: the first part carrying
`inlineData`, if any. -/
def firstInlineData : List ResponsePart → Option InlineData
  | [] => none
  | .dataPart d :: _ => some d
  | .textPart _ :: rest => firstInlineData rest

/-- Function `generateSceneImage` (src/services/gemini.ts lines 113-147),
abstracted over the round trip: on failure or when no inline part is
present it returns `none`; otherwise the data URI built from the first
inline part. -/
def generateSceneImage (prompt : String) (size : ImageSize)
    (outcome : ImageCallOutcome) : Option String :=
  match outcome with
  | .failure => none
  | .response parts =>
    match firstInlineData parts with
    | some d => some ("data:" ++ d.mimeType ++ ";base64," ++ d.data)
    | none => none

/-- The per-segment update applied by `generateImageForSegment`
(App.tsx lines 129-131): set `imageUrl` when the id matches, leave the
segment alone otherwise. -/
def patchSegment (segId url : String) (seg : StorySegment) : StorySegment :=
  if seg.id = segId then { seg with imageUrl := some url } else seg

/-- The update `setStoryLog(prev => prev.map(...))` in `generateImageForSegment`. -/
def patchImage (log : List StorySegment) (segId url : String) : List StorySegment :=
  log.map (patchSegment segId url)

/-- Function `generateImageForSegment` (App.tsx lines 126-133): run the image
call; patch the log only when a URL came back. -/
def generateImageForSegment (log : List StorySegment) (segId prompt : String)
    (size : ImageSize) (outcome : ImageCallOutcome) : List StorySegment :=
  match generateSceneImage prompt size outcome with
  | some url => patchImage log segId url
  | none => log

/-! ## Credential check (src/services/gemini.ts lines 187-200) -/

/-- The host environment seen by `checkAndRequestApiKey`: whether the
`window.aistudio` hook is injected, what `hasSelectedApiKey()` reports,
and whether the `openSelectKey()` flow actually ends with a key selected
(the code never inspects this last fact). -/
structure HookEnv where
  hookPresent : Bool
  hasSelectedKey : Bool
  selectionSucceeds : Bool
deriving DecidableEq

/-- Function `checkAndRequestApiKey` (src/services/gemini.ts lines 187-200): when
the hook is present and reports no key, it awaits `openSelectKey()` and
then returns `true` without re-checking; in every other case it also
returns `true`. -/
def checkAndRequestApiKey (env : HookEnv) : Bool :=
  if env.hookPresent then
    if !env.hasSelectedKey then
      true
    else true
  else true

/-- The init effect (App.tsx lines 30-54) starts the game exactly when
`checkAndRequestApiKey` resolved to `true`. -/
def initProceeds (env : HookEnv) : Bool :=
  checkAndRequestApiKey env

/-- Modelled from the spec: "the application blocks game start until a
credential is confirmed present".  A credential is confirmed present
when the hook reported one already selected or the selection flow
actually ended with one selected. -/
def specCredentialConfirmed (env : HookEnv) : Bool :=
  env.hasSelectedKey || env.selectionSucceeds

/-- The full-screen manual-reload prompt (App.tsx line 137) renders
exactly when `!hasApiKey && !initializing`. -/
def showsReloadPrompt (hasApiKey initializing : Bool) : Bool :=
  !hasApiKey && !initializing

/-! ## The turn controller (App.tsx `handleAction`) -/

/-- The `AppState` record gathers the React state hooks the turn logic touches. -/
structure AppState where
  loading : Bool
  gameState : GameState
  storyLog : List StorySegment
  currentChoices : List String
deriving DecidableEq

/-- One player turn's external inputs: the submitted action, how the
narrative call resolves, and the two `Date.now()` readings (one when the
user segment is created, one when the narrative segment is created). -/
structure TurnInput where
  action : String
  outcome : StoryCallOutcome
  tUser : Nat
  tNarr : Nat
deriving DecidableEq

/-- The id `Date.now().toString() + "-user"` (App.tsx line 71). -/
def mkUserId (t : Nat) : String :=
  Nat.repr t ++ "-user"

/-- The id `Date.now().toString()` (App.tsx line 107). -/
def mkNarrId (t : Nat) : String :=
  Nat.repr t

/-- The user-action segment appended in `handleAction` step 1. -/
def userSegment (inp : TurnInput) : StorySegment :=
  { id := mkUserId inp.tUser
    text := inp.action
    imagePrompt := none
    imageUrl := none
    choices := []
    isUser := true
    timestamp := inp.tUser }

/-- The narrative segment appended in `handleAction` step 4. -/
def narrativeSegment (inp : TurnInput) (result : NarrativeResult) : StorySegment :=
  { id := mkNarrId inp.tNarr
    text := result.narrative
    imagePrompt := some result.image_prompt
    imageUrl := none
    choices := result.suggested_choices
    isUser := false
    timestamp := inp.tNarr }

/-- The history `storyLog.filter(s => !s.isUser).slice(-5).map(s => s.text)`
(App.tsx lines 81-84); note it reads the `storyLog` closure value, i.e.
the log as it was at submission time, before the user segment lands. -/
def historyText (log : List StorySegment) : List String :=
  (lastN 5 (log.filter (fun s => !s.isUser))).map (fun s => s.text)

/-- The request `handleAction` step 2 sends to `generateStorySegment`
(App.tsx lines 86-91), or `none` when the guard `if (loading) return`
dropped the submission without starting a call. -/
structure BackendRequest where
  history : List String
  userAction : String
  currentInventory : List String
  currentQuest : String
deriving DecidableEq

/-- Which backend request, if any, a submission issues. -/
def turnRequest (st : AppState) (inp : TurnInput) : Option BackendRequest :=
  if st.loading then none
  else some
    { history := historyText st.storyLog
      userAction := inp.action
      currentInventory := st.gameState.inventory
      currentQuest := st.gameState.currentQuest }

/-- One complete execution of `handleAction` (App.tsx lines 65-124),
with the awaited backend call resolved by `inp.outcome`.  When `loading`
is set the guard returns immediately and nothing changes. -/
def runTurn (st : AppState) (inp : TurnInput) : AppState :=
  if st.loading then st
  else
    let result := generateStorySegment inp.outcome
    { loading := false
      gameState :=
        { st.gameState with
          inventory := applyInventoryDelta st.gameState.inventory
            result.inventory_add result.inventory_remove
          currentQuest := applyQuest result.new_quest st.gameState.currentQuest }
      storyLog := (st.storyLog ++ [userSegment inp]) ++ [narrativeSegment inp result]
      currentChoices := result.suggested_choices }

/-- A sequence of turns. -/
def runTurns (st : AppState) (inputs : List TurnInput) : AppState :=
  inputs.foldl runTurn st

/-- The hard-coded opening segment (App.tsx lines 39-44); its timestamp
is the `Date.now()` reading during initialization. -/
def initSegment (t : Nat) : StorySegment :=
  { id := "init"
    text := "You awaken in a dimly lit chamber. The air is cold and smells of ancient stone. Dust motes dance in a stray beam of light cutting through the darkness. You have no memory of how you arrived here."
    imagePrompt := none
    imageUrl := none
    choices := ["Search the room", "Call out for help", "Examine yourself"]
    isUser := false
    timestamp := t }

/-- The application state once the init effect has run (App.tsx lines
14-22 and 37-50). -/
def initState (t : Nat) : AppState :=
  { loading := false
    gameState :=
      { inventory := []
        currentQuest := "Awaken and find your purpose."
        health := 100
        location := "Unknown" }
    storyLog := [initSegment t]
    currentChoices := (initSegment t).choices }

/-- The ids present in a log. -/
def segIds (log : List StorySegment) : List String :=
  log.map (fun s => s.id)

/-! ## Set-semantics lemmas -/

theorem mem_setAdd {s : List String} {x a : String} :
    x ∈ setAdd s a ↔ x ∈ s ∨ x = a := by
  unfold setAdd
  split
  · rename_i h
    constructor
    · exact Or.inl
    · rintro (hx | rfl) <;> [exact hx; exact h]
  · simp

theorem nodup_setAdd {s : List String} (h : s.Nodup) (a : String) :
    (setAdd s a).Nodup := by
  unfold setAdd
  split
  · exact h
  · rename_i hna
    simp [List.nodup_append, h, hna]

theorem mem_foldl_setAdd (l : List String) (s : List String) (x : String) :
    x ∈ List.foldl setAdd s l ↔ x ∈ s ∨ x ∈ l := by
  induction l generalizing s with
  | nil => simp
  | cons a l ih =>
    simp only [List.foldl_cons, ih, mem_setAdd, List.mem_cons]
    tauto

theorem nodup_foldl_setAdd (l : List String) (s : List String) (h : s.Nodup) :
    (List.foldl setAdd s l).Nodup := by
  induction l generalizing s with
  | nil => exact h
  | cons a l ih => exact ih _ (nodup_setAdd h a)

theorem mem_setDelete {s : List String} {x a : String} :
    x ∈ setDelete s a ↔ x ∈ s ∧ x ≠ a := by
  simp [setDelete, List.mem_filter]

theorem nodup_setDelete {s : List String} (h : s.Nodup) (a : String) :
    (setDelete s a).Nodup :=
  h.filter _

theorem mem_foldl_setDelete (l : List String) (s : List String) (x : String) :
    x ∈ List.foldl setDelete s l ↔ x ∈ s ∧ x ∉ l := by
  induction l generalizing s with
  | nil => simp
  | cons a l ih =>
    simp only [List.foldl_cons, ih, mem_setDelete, List.mem_cons]
    tauto

theorem nodup_foldl_setDelete (l : List String) (s : List String) (h : s.Nodup) :
    (List.foldl setDelete s l).Nodup := by
  induction l generalizing s with
  | nil => exact h
  | cons a l ih => exact ih _ (nodup_setDelete h a)

theorem mem_toSet (l : List String) (x : String) : x ∈ toSet l ↔ x ∈ l := by
  simp [toSet, mem_foldl_setAdd]

theorem nodup_toSet (l : List String) : (toSet l).Nodup :=
  nodup_foldl_setAdd l [] List.nodup_nil

theorem mem_applyInventoryDelta (inv add remove : List String) (x : String) :
    x ∈ applyInventoryDelta inv add remove ↔ (x ∈ inv ∨ x ∈ add) ∧ x ∉ remove := by
  simp [applyInventoryDelta, mem_foldl_setDelete, mem_foldl_setAdd, mem_toSet]

theorem nodup_applyInventoryDelta (inv add remove : List String) :
    (applyInventoryDelta inv add remove).Nodup :=
  nodup_foldl_setDelete _ _ (nodup_foldl_setAdd _ _ (nodup_toSet inv))

theorem foldl_setAdd_of_disjoint (l : List String) :
    ∀ s : List String, l.Nodup → (∀ x ∈ l, x ∉ s) →
      List.foldl setAdd s l = s ++ l := by
  induction l with
  | nil => intro s _ _; simp
  | cons a l ih =>
    intro s hl hd
    simp only [List.foldl_cons]
    have ha : a ∉ s := hd a (List.mem_cons_self a l)
    have hdisj : ∀ x ∈ l, x ∉ s ++ [a] := by
      intro x hx
      simp only [List.mem_append, List.mem_singleton]
      rintro (hs | rfl)
      · exact hd x (List.mem_cons_of_mem a hx) hs
      · exact (List.nodup_cons.mp hl).1 hx
    rw [setAdd, if_neg ha, ih (s ++ [a]) hl.of_cons hdisj]
    simp

theorem toSet_eq_self_of_nodup {l : List String} (h : l.Nodup) : toSet l = l := by
  have := foldl_setAdd_of_disjoint l [] h (by simp)
  simpa [toSet] using this

theorem applyInventoryDelta_nil_nil {inv : List String} (h : inv.Nodup) :
    applyInventoryDelta inv [] [] = inv := by
  simp [applyInventoryDelta, toSet_eq_self_of_nodup h]

/-! ## Quest lemmas -/

theorem applyQuest_none (cur : String) : applyQuest none cur = cur := rfl

theorem applyQuest_empty (cur : String) : applyQuest (some "") cur = cur := by
  simp [applyQuest]

theorem applyQuest_nonempty {q : String} (cur : String) (h : q ≠ "") :
    applyQuest (some q) cur = q := by
  simp [applyQuest, h]

theorem foldl_applyQuest_none (deltas : List (Option String)) :
    ∀ cur : String, (∀ d ∈ deltas, d = none) →
      List.foldl (fun c d => applyQuest d c) cur deltas = cur := by
  induction deltas with
  | nil => intro cur _; rfl
  | cons d deltas ih =>
    intro cur h
    have hd : d = none := h d (List.mem_cons_self d deltas)
    simp only [List.foldl_cons, hd, applyQuest_none]
    exact ih cur fun x hx => h x (List.mem_cons_of_mem d hx)

theorem applyQuest_ne_empty (d : Option String) (cur : String) (h : cur ≠ "") :
    applyQuest d cur ≠ "" := by
  match d with
  | none => exact h
  | some q =>
    by_cases hq : q = ""
    · simpa [applyQuest, hq] using h
    · simp [applyQuest, hq]

/-! ## Turn-controller lemmas -/

theorem runTurn_of_loading {st : AppState} (inp : TurnInput) (h : st.loading = true) :
    runTurn st inp = st := by
  unfold runTurn
  rw [h]
  simp

theorem runTurn_of_idle {st : AppState} (inp : TurnInput) (h : st.loading = false) :
    runTurn st inp =
      { loading := false
        gameState :=
          { st.gameState with
            inventory := applyInventoryDelta st.gameState.inventory
              (generateStorySegment inp.outcome).inventory_add
              (generateStorySegment inp.outcome).inventory_remove
            currentQuest := applyQuest (generateStorySegment inp.outcome).new_quest
              st.gameState.currentQuest }
        storyLog := (st.storyLog ++ [userSegment inp])
          ++ [narrativeSegment inp (generateStorySegment inp.outcome)]
        currentChoices := (generateStorySegment inp.outcome).suggested_choices } := by
  unfold runTurn
  rw [h]
  simp

theorem runTurn_preserves_quest_ne_empty (st : AppState) (inp : TurnInput)
    (h : st.gameState.currentQuest ≠ "") :
    (runTurn st inp).gameState.currentQuest ≠ "" := by
  by_cases hl : st.loading = true
  · rw [runTurn_of_loading inp hl]; exact h
  · rw [runTurn_of_idle inp (by simpa using hl)]
    exact applyQuest_ne_empty _ _ h

theorem runTurns_preserves_quest_ne_empty (inputs : List TurnInput) :
    ∀ st : AppState, st.gameState.currentQuest ≠ "" →
      (runTurns st inputs).gameState.currentQuest ≠ "" := by
  induction inputs with
  | nil => intro st h; exact h
  | cons inp inputs ih =>
    intro st h
    exact ih (runTurn st inp) (runTurn_preserves_quest_ne_empty st inp h)

/-! ## C1 -/

/-- C1: applying an inventory delta yields exactly the set
(current ∪ add) \ remove — additions first, then removals, so an item
named in both lists of one delta is absent — and the result is
duplicate-free. -/
theorem inventory_delta_is_union_diff (inv add remove : List String) :
    (∀ x, x ∈ applyInventoryDelta inv add remove ↔ (x ∈ inv ∨ x ∈ add) ∧ x ∉ remove) ∧
    (∀ x ∈ remove, x ∉ applyInventoryDelta inv add remove) ∧
    (applyInventoryDelta inv add remove).Nodup := by
  refine ⟨fun x => mem_applyInventoryDelta inv add remove x, ?_,
    nodup_applyInventoryDelta inv add remove⟩
  intro x hx hmem
  exact ((mem_applyInventoryDelta inv add remove x).mp hmem).2 hx

/-! ## C2 -/

/-- A parsed backend payload whose quest field is the non-null empty
string. -/
def emptyQuestResult : NarrativeResult :=
  { narrative := "The hall stretches on."
    inventory_add := []
    inventory_remove := []
    new_quest := some ""
    image_prompt := "A hall."
    suggested_choices := ["Go on"] }

/-- C2 counterexample: a turn whose delta carries the non-null quest
string "" leaves the stored quest unchanged, refuting "the stored quest
string changes if and only if the delta carries a non-null quest
string". -/
theorem quest_nonnull_delta_without_change :
    (some "" : Option String) ≠ none ∧
    (runTurn (initState 0)
        { action := "look", outcome := .parsed emptyQuestResult, tUser := 1, tNarr := 2 }
      ).gameState.currentQuest
      = (initState 0).gameState.currentQuest := by
  refine ⟨by simp, ?_⟩
  rw [runTurn_of_idle _ rfl]
  rfl

/-- C2 (amended): the stored quest is replaced by the delta's quest
field exactly when that field is non-null and non-empty; a null or
empty quest field leaves the quest unchanged, and any sequence of
null-quest deltas leaves the quest equal to its original value. -/
theorem quest_replacement_rule (st : AppState) (inp : TurnInput) (q cur : String)
    (deltas : List (Option String)) (hl : st.loading = false) (hq : q ≠ "")
    (hnull : ∀ d ∈ deltas, d = none) :
    (runTurn st inp).gameState.currentQuest
      = applyQuest (generateStorySegment inp.outcome).new_quest st.gameState.currentQuest ∧
    applyQuest none cur = cur ∧
    applyQuest (some "") cur = cur ∧
    applyQuest (some q) cur = q ∧
    List.foldl (fun c d => applyQuest d c) cur deltas = cur := by
  refine ⟨?_, applyQuest_none cur, applyQuest_empty cur, applyQuest_nonempty cur hq,
    foldl_applyQuest_none deltas cur hnull⟩
  rw [runTurn_of_idle inp hl]

/-- C2 witness: the amended rule evaluated at a concrete turn. -/
theorem quest_replacement_rule_example :
    (runTurn (initState 0)
        { action := "look", outcome := .networkError, tUser := 1, tNarr := 2 }
      ).gameState.currentQuest
      = applyQuest (generateStorySegment .networkError).new_quest
          (initState 0).gameState.currentQuest ∧
    applyQuest none "Awaken and find your purpose." = "Awaken and find your purpose." ∧
    applyQuest (some "") "Awaken and find your purpose." = "Awaken and find your purpose." ∧
    applyQuest (some "Find the key.") "Awaken and find your purpose." = "Find the key." ∧
    List.foldl (fun c d => applyQuest d c) "Awaken and find your purpose." [none, none]
      = "Awaken and find your purpose." :=
  quest_replacement_rule (initState 0)
    { action := "look", outcome := .networkError, tUser := 1, tNarr := 2 }
    "Find the key." "Awaken and find your purpose." [none, none] rfl
    (by decide) (by decide)

/-! ## C10 -/

/-- C10: a delta whose quest field is the empty string leaves the quest
unchanged exactly as a null quest does, and starting from the non-empty
initial quest the current quest is never the empty string after any
sequence of turns. -/
theorem empty_quest_delta_noop_and_invariant (cur : String) (t0 : Nat)
    (inputs : List TurnInput) :
    applyQuest (some "") cur = applyQuest none cur ∧
    applyQuest (some "") cur = cur ∧
    (runTurns (initState t0) inputs).gameState.currentQuest ≠ "" := by
  refine ⟨by rw [applyQuest_empty, applyQuest_none], applyQuest_empty cur, ?_⟩
  refine runTurns_preserves_quest_ne_empty inputs (initState t0) ?_
  show "Awaken and find your purpose." ≠ ""
  decide

/-! ## C4 -/

/-- C4: a submission made while a narrative call is outstanding
(`loading` set) has no effect at all — the whole application state is
unchanged — and no backend request is issued. -/
theorem loading_ignores_submission (st : AppState) (inp : TurnInput)
    (h : st.loading = true) :
    runTurn st inp = st ∧ turnRequest st inp = none := by
  refine ⟨runTurn_of_loading inp h, ?_⟩
  unfold turnRequest
  rw [h]
  simp

/-- A state with a narrative call in flight. -/
def loadingState : AppState :=
  { loading := true
    gameState :=
      { inventory := ["torch"]
        currentQuest := "Awaken and find your purpose."
        health := 100
        location := "Unknown" }
    storyLog := [initSegment 0]
    currentChoices := ["Look around"] }

/-- C4 witness: the no-effect theorem evaluated at a concrete loading
state. -/
theorem loading_ignores_submission_example :
    runTurn loadingState { action := "go", outcome := .networkError, tUser := 1, tNarr := 2 }
      = loadingState ∧
    turnRequest loadingState { action := "go", outcome := .networkError, tUser := 1, tNarr := 2 }
      = none :=
  loading_ignores_submission loadingState
    { action := "go", outcome := .networkError, tUser := 1, tNarr := 2 } rfl

/-! ## C5 -/

/-- C5 counterexample: with the hook present, no key selected, and a
selection flow that does not end with a key, no credential is confirmed
present, yet `checkAndRequestApiKey` resolves `true` and game
initialization proceeds — refuting "the application blocks game start
until a credential is confirmed present". -/
theorem init_proceeds_without_confirmed_credential :
    initProceeds { hookPresent := true, hasSelectedKey := false, selectionSucceeds := false }
      = true ∧
    specCredentialConfirmed
      { hookPresent := true, hasSelectedKey := false, selectionSucceeds := false } = false := by
  exact ⟨rfl, rfl⟩

/-- C5 (amended): `checkAndRequestApiKey` returns `true` on every path —
when the hook reports no credential it triggers the selection flow and
returns `true` without re-checking — so game initialization always
proceeds and the manual-reload prompt is never shown once
initialization has finished. -/
theorem check_api_key_always_true (env : HookEnv) :
    checkAndRequestApiKey env = true ∧ initProceeds env = true ∧
    showsReloadPrompt (checkAndRequestApiKey env) false = false := by
  obtain ⟨hp, hk, ss⟩ := env
  cases hp <;> cases hk <;> simp [checkAndRequestApiKey, initProceeds, showsReloadPrompt]

/-! ## C6 -/

/-- C6: `generateSceneImage` is total — every failure and every
response without an inline image part yields `none` rather than an
error, an inline part yields the data URI built from its media type and
payload — and an absent result leaves the story log (hence the
segment's `imageUrl`) entirely unchanged. -/
theorem scene_image_absent_on_failure (prompt : String) (size : ImageSize)
    (parts : List ResponsePart) (log : List StorySegment) (segId : String)
    (o : ImageCallOutcome) :
    generateSceneImage prompt size .failure = none ∧
    (firstInlineData parts = none → generateSceneImage prompt size (.response parts) = none) ∧
    (∀ d, firstInlineData parts = some d →
      generateSceneImage prompt size (.response parts)
        = some ("data:" ++ d.mimeType ++ ";base64," ++ d.data)) ∧
    (generateSceneImage prompt size o = none →
      generateImageForSegment log segId prompt size o = log) := by
  refine ⟨rfl, ?_, ?_, ?_⟩
  · intro h; simp [generateSceneImage, h]
  · intro d h; simp [generateSceneImage, h]
  · intro h; simp [generateImageForSegment, h]

/-- C6 witness: concrete evaluations of the totality theorem — a
text-only response yields `none`, a failed call leaves a concrete log
unchanged, and an inline part yields its data URI. -/
theorem scene_image_absent_example :
    generateSceneImage "p" ImageSize.size1K (.response [ResponsePart.textPart "t"]) = none ∧
    generateImageForSegment [initSegment 0] "init" "p" ImageSize.size1K .failure
      = [initSegment 0] ∧
    generateSceneImage "p" ImageSize.size1K
        (.response [ResponsePart.dataPart { mimeType := "image/png", data := "AAAA" }])
      = some "data:image/png;base64,AAAA" :=
  ⟨(scene_image_absent_on_failure "p" ImageSize.size1K [ResponsePart.textPart "t"]
      [initSegment 0] "init" (.response [ResponsePart.textPart "t"])).2.1 rfl,
   (scene_image_absent_on_failure "p" ImageSize.size1K [] [initSegment 0] "init"
      .failure).2.2.2 rfl,
   (scene_image_absent_on_failure "p" ImageSize.size1K
      [ResponsePart.dataPart { mimeType := "image/png", data := "AAAA" }]
      [initSegment 0] "init" .failure).2.2.1
      { mimeType := "image/png", data := "AAAA" } rfl⟩

/-! ## C3 -/

theorem generateStorySegment_of_failure {o : StoryCallOutcome}
    (h : ∀ r, o ≠ .parsed r) : generateStorySegment o = fallbackResult := by
  cases o with
  | networkError => rfl
  | missingText => rfl
  | parseError => rfl
  | parsed r => exact absurd rfl (h r)

/-- C3: `generateStorySegment` is total — every failure path yields
exactly the fixed fallback payload (in-world uncertainty narrative,
empty add/remove lists, null quest, generic fallback image prompt,
single "Try again" choice) — and a turn driven by the fallback leaves
inventory and quest unchanged while appending the fallback narrative. -/
theorem fallback_on_failure (o : StoryCallOutcome) (st : AppState) (inp : TurnInput)
    (ho : ∀ r, o ≠ .parsed r) (hl : st.loading = false)
    (hnd : st.gameState.inventory.Nodup) (hf : ∀ r, inp.outcome ≠ .parsed r) :
    generateStorySegment o = fallbackResult ∧
    fallbackResult.inventory_add = [] ∧
    fallbackResult.inventory_remove = [] ∧
    fallbackResult.new_quest = none ∧
    fallbackResult.suggested_choices = ["Try again"] ∧
    (runTurn st inp).gameState.inventory = st.gameState.inventory ∧
    (runTurn st inp).gameState.currentQuest = st.gameState.currentQuest ∧
    (runTurn st inp).currentChoices = ["Try again"] ∧
    (runTurn st inp).storyLog
      = (st.storyLog ++ [userSegment inp]) ++ [narrativeSegment inp fallbackResult] := by
  have hgf : generateStorySegment inp.outcome = fallbackResult :=
    generateStorySegment_of_failure hf
  rw [runTurn_of_idle inp hl]
  refine ⟨generateStorySegment_of_failure ho, rfl, rfl, rfl, rfl, ?_, ?_, ?_, ?_⟩
  · rw [hgf]
    exact applyInventoryDelta_nil_nil hnd
  · rw [hgf]
    rfl
  · rw [hgf]
    rfl
  · rw [hgf]

/-- C3 witness: the fallback theorem evaluated at a failing turn from
the initial state. -/
theorem fallback_on_failure_example :
    generateStorySegment .missingText = fallbackResult ∧
    fallbackResult.inventory_add = [] ∧
    fallbackResult.inventory_remove = [] ∧
    fallbackResult.new_quest = none ∧
    fallbackResult.suggested_choices = ["Try again"] ∧
    (runTurn (initState 0)
        { action := "look", outcome := .parseError, tUser := 1, tNarr := 2 }
      ).gameState.inventory = (initState 0).gameState.inventory ∧
    (runTurn (initState 0)
        { action := "look", outcome := .parseError, tUser := 1, tNarr := 2 }
      ).gameState.currentQuest = (initState 0).gameState.currentQuest ∧
    (runTurn (initState 0)
        { action := "look", outcome := .parseError, tUser := 1, tNarr := 2 }
      ).currentChoices = ["Try again"] ∧
    (runTurn (initState 0)
        { action := "look", outcome := .parseError, tUser := 1, tNarr := 2 }
      ).storyLog
      = ((initState 0).storyLog
          ++ [userSegment { action := "look", outcome := .parseError, tUser := 1, tNarr := 2 }])
        ++ [narrativeSegment { action := "look", outcome := .parseError, tUser := 1, tNarr := 2 }
              fallbackResult] :=
  fallback_on_failure .missingText (initState 0)
    { action := "look", outcome := .parseError, tUser := 1, tNarr := 2 }
    (fun r h => nomatch h) rfl List.nodup_nil (fun r h => nomatch h)

/-! ## C7 -/

theorem lastN_suffix (n : Nat) (l : List α) : List.IsSuffix (lastN n l) l :=
  List.drop_suffix _ _

theorem lastN_length (n : Nat) (l : List α) : (lastN n l).length = min n l.length := by
  simp only [lastN, List.length_drop]
  omega

theorem lastN_eq_self {n : Nat} {l : List α} (h : l.length ≤ n) : lastN n l = l := by
  simp [lastN, Nat.sub_eq_zero_of_le h]

/-- C7: the history a submission hands to the narrative call is exactly
the text of the last five non-user segments of the log at submission
time, in log order; those segments form a suffix of the non-user
sublist, none of them is a player action, and the further `slice(-6)`
truncation inside the backend call leaves that history untouched. -/
theorem history_last_five_nonuser (st : AppState) (inp : TurnInput) (r : BackendRequest)
    (h : turnRequest st inp = some r) :
    r.history = (lastN 5 (st.storyLog.filter (fun s => !s.isUser))).map (fun s => s.text) ∧
    List.IsSuffix (lastN 5 (st.storyLog.filter (fun s => !s.isUser)))
      (st.storyLog.filter (fun s => !s.isUser)) ∧
    (∀ s ∈ lastN 5 (st.storyLog.filter (fun s => !s.isUser)), s.isUser = false) ∧
    r.history.length = min 5 (st.storyLog.filter (fun s => !s.isUser)).length ∧
    contextHistory r.history = r.history := by
  unfold turnRequest at h
  by_cases hl : st.loading = true
  · rw [hl] at h
    simp at h
  · rw [eq_false_of_ne_true hl] at h
    simp only [Bool.false_eq_true, if_false, Option.some.injEq] at h
    subst h
    refine ⟨rfl, lastN_suffix 5 _, ?_, ?_, ?_⟩
    · intro s hs
      have hmem : s ∈ st.storyLog.filter (fun s => !s.isUser) :=
        (lastN_suffix 5 _).subset hs
      have := (List.mem_filter.mp hmem).2
      simpa using this
    · show (historyText st.storyLog).length = _
      simp [historyText, lastN_length]
    · show contextHistory (historyText st.storyLog) = historyText st.storyLog
      apply lastN_eq_self
      simp only [historyText, List.length_map, lastN_length]
      omega

/-- A concrete idle state with a mixed story log, used to evaluate the
claims on explicit input. -/
def sampleState : AppState :=
  { loading := false
    gameState :=
      { inventory := ["torch"]
        currentQuest := "Awaken and find your purpose."
        health := 100
        location := "Unknown" }
    storyLog :=
      [ { id := "a", text := "first", imagePrompt := none, imageUrl := none,
          choices := [], isUser := false, timestamp := 0 },
        { id := "b", text := "go", imagePrompt := none, imageUrl := none,
          choices := [], isUser := true, timestamp := 1 },
        { id := "c", text := "second", imagePrompt := none, imageUrl := none,
          choices := [], isUser := false, timestamp := 2 } ]
    currentChoices := ["Look around"] }

/-- The request issued from `sampleState`. -/
def sampleRequest : BackendRequest :=
  { history := ["first", "second"]
    userAction := "go on"
    currentInventory := ["torch"]
    currentQuest := "Awaken and find your purpose." }

/-- C7 witness: the history theorem evaluated on a concrete log holding
two narrative segments and one player action. -/
theorem history_last_five_nonuser_example :
    sampleRequest.history
      = (lastN 5 (sampleState.storyLog.filter (fun s => !s.isUser))).map (fun s => s.text) ∧
    List.IsSuffix (lastN 5 (sampleState.storyLog.filter (fun s => !s.isUser)))
      (sampleState.storyLog.filter (fun s => !s.isUser)) ∧
    (∀ s ∈ lastN 5 (sampleState.storyLog.filter (fun s => !s.isUser)), s.isUser = false) ∧
    sampleRequest.history.length
      = min 5 (sampleState.storyLog.filter (fun s => !s.isUser)).length ∧
    contextHistory sampleRequest.history = sampleRequest.history :=
  history_last_five_nonuser sampleState
    { action := "go on", outcome := .networkError, tUser := 3, tNarr := 4 }
    sampleRequest rfl

/-! ## C8 -/

/-- C8: the image patch touches exactly the segments whose id matches —
it preserves length and order, rewrites only the `imageUrl` field of a
matched segment, leaves every non-matching segment identical, and is a
complete no-op when no segment carries the id; and a resolved image call
applies exactly this patch. -/
theorem image_patch_by_id_frame (log : List StorySegment) (s url : String) :
    (patchImage log s url).length = log.length ∧
    (∀ i : Nat, (patchImage log s url)[i]? = (log[i]?).map (patchSegment s url)) ∧
    (∀ seg : StorySegment, seg.id ≠ s → patchSegment s url seg = seg) ∧
    (∀ seg : StorySegment, seg.id = s →
      patchSegment s url seg = { seg with imageUrl := some url }) ∧
    (∀ seg : StorySegment, (patchSegment s url seg).id = seg.id
      ∧ (patchSegment s url seg).text = seg.text
      ∧ (patchSegment s url seg).imagePrompt = seg.imagePrompt
      ∧ (patchSegment s url seg).choices = seg.choices
      ∧ (patchSegment s url seg).isUser = seg.isUser
      ∧ (patchSegment s url seg).timestamp = seg.timestamp) ∧
    ((∀ seg ∈ log, seg.id ≠ s) → patchImage log s url = log) ∧
    (∀ (prompt : String) (size : ImageSize) (o : ImageCallOutcome),
      generateSceneImage prompt size o = some url →
        generateImageForSegment log s prompt size o = patchImage log s url) := by
  refine ⟨List.length_map _ _, ?_, ?_, ?_, ?_, ?_, ?_⟩
  · intro i
    simp [patchImage]
  · intro seg h
    simp [patchSegment, h]
  · intro seg h
    simp [patchSegment, h]
  · intro seg
    unfold patchSegment
    split <;> exact ⟨rfl, rfl, rfl, rfl, rfl, rfl⟩
  · intro h
    have : ∀ seg ∈ log, patchSegment s url seg = seg := by
      intro seg hseg
      simp [patchSegment, h seg hseg]
    calc patchImage log s url = log.map id := List.map_congr_left this
    _ = log := List.map_id log
  · intro prompt size o h
    simp [generateImageForSegment, h]

/-- C8 witness: concrete evaluations of the patch theorem — a
non-matching id leaves a concrete log unchanged, a matching segment
gets exactly its `imageUrl` replaced, and a resolved image call applies
the patch. -/
theorem image_patch_by_id_example :
    patchImage [initSegment 0] "nope" "u" = [initSegment 0] ∧
    patchSegment "init" "u" (initSegment 0) = { initSegment 0 with imageUrl := some "u" } ∧
    generateImageForSegment [initSegment 0] "init" "p" ImageSize.size1K
        (.response [ResponsePart.dataPart { mimeType := "m", data := "d" }])
      = patchImage [initSegment 0] "init" "data:m;base64,d" :=
  ⟨(image_patch_by_id_frame [initSegment 0] "nope" "u").2.2.2.2.2.1 (by decide),
   (image_patch_by_id_frame [initSegment 0] "init" "u").2.2.2.1 (initSegment 0) rfl,
   (image_patch_by_id_frame [initSegment 0] "init" "data:m;base64,d").2.2.2.2.2.2 "p"
     ImageSize.size1K (.response [ResponsePart.dataPart { mimeType := "m", data := "d" }]) rfl⟩

/-! ## Decimal ids: facts about `Nat.repr`

`Date.now().toString()` is modelled by `Nat.repr`.  The id-uniqueness
claim needs that distinct numbers print as distinct digit strings and
that a digit string never contains the characters of `"-user"` or
`"init"`. -/

/-- The decimal digit characters of `n`, most significant first; a
fuel-free reference for `Nat.toDigitsCore`. -/
def decDigits (n : Nat) : List Char :=
  if _h : n < 10 then [Nat.digitChar n]
  else decDigits (n / 10) ++ [Nat.digitChar (n % 10)]
decreasing_by
  exact Nat.div_lt_self (by omega) (by omega)

theorem decDigits_of_lt {n : Nat} (h : n < 10) :
    decDigits n = [Nat.digitChar n] := by
  rw [decDigits]
  simp [h]

theorem decDigits_of_ge {n : Nat} (h : ¬ n < 10) :
    decDigits n = decDigits (n / 10) ++ [Nat.digitChar (n % 10)] := by
  rw [decDigits]
  simp [h]

theorem toDigitsCore_eq_decDigits :
    ∀ (fuel n : Nat) (ds : List Char), n < fuel →
      Nat.toDigitsCore 10 fuel n ds = decDigits n ++ ds := by
  intro fuel
  induction fuel with
  | zero => intro n ds h; omega
  | succ fuel ih =>
    intro n ds h
    simp only [Nat.toDigitsCore]
    by_cases hdiv : n / 10 = 0
    · have hlt : n < 10 := by omega
      rw [if_pos hdiv, decDigits_of_lt hlt, Nat.mod_eq_of_lt hlt]
      rfl
    · have hge : ¬ n < 10 := by omega
      have hfuel : n / 10 < fuel := by
        have hdn : n / 10 < n := Nat.div_lt_self (by omega) (by decide)
        omega
      rw [if_neg hdiv, ih (n / 10) (Nat.digitChar (n % 10) :: ds) hfuel,
        decDigits_of_ge hge, List.append_assoc]
      rfl

theorem repr_data_eq_decDigits (n : Nat) : (Nat.repr n).data = decDigits n := by
  show ((Nat.toDigits 10 n).asString).data = decDigits n
  rw [Nat.toDigits, toDigitsCore_eq_decDigits (n + 1) n [] (Nat.lt_succ_self n)]
  simp [List.asString]

theorem digitChar_isDigit {n : Nat} (h : n < 10) :
    (Nat.digitChar n).isDigit = true := by
  interval_cases n <;> decide

theorem decDigits_isDigit (n : Nat) : ∀ c ∈ decDigits n, c.isDigit = true := by
  induction n using Nat.strong_induction_on with
  | _ n ih =>
    by_cases h : n < 10
    · rw [decDigits_of_lt h]
      intro c hc
      rw [List.mem_singleton] at hc
      subst hc
      exact digitChar_isDigit h
    · rw [decDigits_of_ge h]
      intro c hc
      rcases List.mem_append.mp hc with hc | hc
      · exact ih (n / 10) (Nat.div_lt_self (by omega) (by omega)) c hc
      · rw [List.mem_singleton] at hc
        subst hc
        exact digitChar_isDigit (Nat.mod_lt n (by omega))

theorem decDigits_ne_nil (n : Nat) : decDigits n ≠ [] := by
  by_cases h : n < 10
  · rw [decDigits_of_lt h]
    simp
  · rw [decDigits_of_ge h]
    simp

theorem digitChar_inj_lt :
    ∀ m < 10, ∀ n < 10, Nat.digitChar m = Nat.digitChar n → m = n := by
  decide

theorem decDigits_inj : ∀ m n : Nat, decDigits m = decDigits n → m = n := by
  intro m
  induction m using Nat.strong_induction_on with
  | _ m ih =>
    intro n h
    by_cases hm : m < 10 <;> by_cases hn : n < 10
    · rw [decDigits_of_lt hm, decDigits_of_lt hn] at h
      rw [List.cons.injEq] at h
      exact digitChar_inj_lt m hm n hn h.1
    · rw [decDigits_of_lt hm, decDigits_of_ge hn] at h
      have hlen := congrArg List.length h
      simp only [List.length_singleton, List.length_append] at hlen
      have h0 : (decDigits (n / 10)).length = 0 := by omega
      exact absurd (List.length_eq_zero.mp h0) (decDigits_ne_nil (n / 10))
    · rw [decDigits_of_ge hm, decDigits_of_lt hn] at h
      have hlen := congrArg List.length h
      simp only [List.length_singleton, List.length_append] at hlen
      have h0 : (decDigits (m / 10)).length = 0 := by omega
      exact absurd (List.length_eq_zero.mp h0) (decDigits_ne_nil (m / 10))
    · rw [decDigits_of_ge hm, decDigits_of_ge hn] at h
      obtain ⟨h1, h2⟩ := List.append_inj' h rfl
      rw [List.cons.injEq] at h2
      have hmod : m % 10 = n % 10 :=
        digitChar_inj_lt (m % 10) (Nat.mod_lt m (by omega)) (n % 10)
          (Nat.mod_lt n (by omega)) h2.1
      have hdivlt : m / 10 < m := Nat.div_lt_self (by omega) (by omega)
      have hdiv : m / 10 = n / 10 := ih (m / 10) hdivlt (n / 10) h1
      omega

theorem repr_inj {m n : Nat} (h : Nat.repr m = Nat.repr n) : m = n := by
  apply decDigits_inj
  have hd := congrArg String.data h
  rwa [repr_data_eq_decDigits, repr_data_eq_decDigits] at hd

theorem dash_not_mem_repr (n : Nat) : ('-') ∉ (Nat.repr n).data := by
  rw [repr_data_eq_decDigits]
  intro h
  exact absurd (decDigits_isDigit n _ h) (by decide)

/-! ## Segment-id distinctness -/

theorem mkNarrId_inj {m n : Nat} (h : mkNarrId m = mkNarrId n) : m = n :=
  repr_inj h

theorem mkUserId_inj {m n : Nat} (h : mkUserId m = mkUserId n) : m = n := by
  unfold mkUserId at h
  have hd := congrArg String.data h
  rw [String.data_append, String.data_append] at hd
  have hr : (Nat.repr m).data = (Nat.repr n).data := List.append_cancel_right hd
  exact repr_inj (String.ext hr)

theorem mkUserId_ne_mkNarrId (m n : Nat) : mkUserId m ≠ mkNarrId n := by
  intro h
  have hd := congrArg String.data h
  rw [mkUserId, mkNarrId, String.data_append] at hd
  have hmem : ('-') ∈ (Nat.repr m).data ++ ("-user").data := by
    apply List.mem_append_right
    decide
  rw [hd] at hmem
  exact dash_not_mem_repr n hmem

theorem init_ne_mkUserId (m : Nat) : "init" ≠ mkUserId m := by
  intro h
  have hd := congrArg String.data h
  rw [mkUserId, String.data_append] at hd
  have hmem : ('-') ∈ (Nat.repr m).data ++ ("-user").data := by
    apply List.mem_append_right
    decide
  rw [← hd] at hmem
  exact absurd hmem (by decide)

theorem init_ne_mkNarrId (m : Nat) : "init" ≠ mkNarrId m := by
  intro h
  have hd := congrArg String.data h
  rw [mkNarrId, repr_data_eq_decDigits] at hd
  have hmem : ('i') ∈ decDigits m := by
    rw [← hd]
    decide
  exact absurd (decDigits_isDigit m _ hmem) (by decide)

/-! ## Shape of the log after a run -/

/-- The two segments appended by one executed turn. -/
def turnSegments (inp : TurnInput) : List StorySegment :=
  [userSegment inp, narrativeSegment inp (generateStorySegment inp.outcome)]

/-- The two ids minted by one executed turn. -/
def turnIds (inp : TurnInput) : List String :=
  [mkUserId inp.tUser, mkNarrId inp.tNarr]

theorem runTurns_storyLog (inputs : List TurnInput) :
    ∀ st : AppState, st.loading = false →
      (runTurns st inputs).storyLog = st.storyLog ++ inputs.flatMap turnSegments ∧
      (runTurns st inputs).loading = false := by
  induction inputs with
  | nil =>
    intro st h
    exact ⟨by simp [runTurns], h⟩
  | cons inp rest ih =>
    intro st h
    have hstep : runTurns st (inp :: rest) = runTurns (runTurn st inp) rest := rfl
    have h1 : (runTurn st inp).loading = false := by
      rw [runTurn_of_idle inp h]
    have h2 : (runTurn st inp).storyLog = st.storyLog ++ turnSegments inp := by
      rw [runTurn_of_idle inp h]
      simp [turnSegments]
    obtain ⟨ha, hb⟩ := ih (runTurn st inp) h1
    rw [hstep]
    refine ⟨?_, hb⟩
    rw [ha, h2, List.flatMap_cons, List.append_assoc]

theorem segIds_append (a b : List StorySegment) :
    segIds (a ++ b) = segIds a ++ segIds b :=
  List.map_append _ a b

theorem segIds_flatMap_turnSegments (inputs : List TurnInput) :
    segIds (inputs.flatMap turnSegments) = inputs.flatMap turnIds := by
  induction inputs with
  | nil => rfl
  | cons inp rest ih =>
    rw [List.flatMap_cons, List.flatMap_cons, segIds_append, ih]
    rfl

theorem mem_flatMap_turnIds {x : String} {inputs : List TurnInput} :
    x ∈ inputs.flatMap turnIds ↔
      ∃ inp ∈ inputs, x = mkUserId inp.tUser ∨ x = mkNarrId inp.tNarr := by
  rw [List.mem_flatMap]
  constructor
  · rintro ⟨inp, hin, hx⟩
    refine ⟨inp, hin, ?_⟩
    simpa [turnIds] using hx
  · rintro ⟨inp, hin, hx | hx⟩
    · exact ⟨inp, hin, by simp [turnIds, hx]⟩
    · exact ⟨inp, hin, by simp [turnIds, hx]⟩

theorem init_not_mem_flatMap_turnIds (inputs : List TurnInput) :
    "init" ∉ inputs.flatMap turnIds := by
  intro h
  rcases mem_flatMap_turnIds.mp h with ⟨inp, _, h | h⟩
  · exact init_ne_mkUserId inp.tUser h
  · exact init_ne_mkNarrId inp.tNarr h

theorem nodup_flatMap_turnIds (inputs : List TurnInput)
    (hu : (inputs.map TurnInput.tUser).Nodup)
    (hn : (inputs.map TurnInput.tNarr).Nodup) :
    (inputs.flatMap turnIds).Nodup := by
  induction inputs with
  | nil => simp
  | cons inp rest ih =>
    rw [List.flatMap_cons, List.nodup_append]
    obtain ⟨hu1, hu2⟩ := List.nodup_cons.mp hu
    obtain ⟨hn1, hn2⟩ := List.nodup_cons.mp hn
    refine ⟨?_, ih hu2 hn2, ?_⟩
    · show ([mkUserId inp.tUser, mkNarrId inp.tNarr]).Nodup
      simp [mkUserId_ne_mkNarrId inp.tUser inp.tNarr]
    · intro x hx hx2
      have hx' : x = mkUserId inp.tUser ∨ x = mkNarrId inp.tNarr := by
        simpa [turnIds] using hx
      rcases mem_flatMap_turnIds.mp hx2 with ⟨j, hj, hxj | hxj⟩
      · rcases hx' with hxu | hxu
        · rw [hxu] at hxj
          have heq := mkUserId_inj hxj
          exact hu1 (heq ▸ List.mem_map_of_mem TurnInput.tUser hj)
        · rw [hxu] at hxj
          exact mkUserId_ne_mkNarrId j.tUser inp.tNarr hxj.symm
      · rcases hx' with hxu | hxu
        · rw [hxu] at hxj
          exact mkUserId_ne_mkNarrId inp.tUser j.tNarr hxj
        · rw [hxu] at hxj
          have heq := mkNarrId_inj hxj
          exact hn1 (heq ▸ List.mem_map_of_mem TurnInput.tNarr hj)

/-! ## C9 -/

/-- C9 counterexample: `Date.now()` has millisecond resolution, and the
narrative-segment id is exactly its string value, so two turns whose
narrative segments are minted in the same millisecond share an id — a
reachable log (two turns with narrative times both 2) whose ids are not
unique. -/
theorem duplicate_segment_ids_reachable :
    ¬ (segIds (runTurns (initState 0)
        [ { action := "a", outcome := .networkError, tUser := 1, tNarr := 2 },
          { action := "b", outcome := .networkError, tUser := 3, tNarr := 2 } ]
      ).storyLog).Nodup := by
  decide

/-- C9 (amended): every reachable story log has pairwise-distinct
segment ids, provided the `Date.now()` readings taken when minting the
user segments are pairwise distinct across turns and likewise for the
narrative segments (two turns minted in the same millisecond would
collide). -/
theorem segment_ids_unique_of_distinct_times (t0 : Nat) (inputs : List TurnInput)
    (hu : (inputs.map TurnInput.tUser).Nodup)
    (hn : (inputs.map TurnInput.tNarr).Nodup) :
    (segIds (runTurns (initState t0) inputs).storyLog).Nodup := by
  obtain ⟨hlog, -⟩ := runTurns_storyLog inputs (initState t0) rfl
  rw [hlog, segIds_append, segIds_flatMap_turnSegments]
  have hinit : segIds (initState t0).storyLog = ["init"] := rfl
  rw [hinit, List.singleton_append, List.nodup_cons]
  exact ⟨init_not_mem_flatMap_turnIds inputs, nodup_flatMap_turnIds inputs hu hn⟩

/-- C9 witness: id uniqueness evaluated on two concrete turns with
distinct clock readings. -/
theorem segment_ids_unique_example :
    (segIds (runTurns (initState 0)
        [ { action := "a", outcome := .networkError, tUser := 1, tNarr := 2 },
          { action := "b", outcome := .networkError, tUser := 3, tNarr := 4 } ]
      ).storyLog).Nodup :=
  segment_ids_unique_of_distinct_times 0
    [ { action := "a", outcome := .networkError, tUser := 1, tNarr := 2 },
      { action := "b", outcome := .networkError, tUser := 3, tNarr := 4 } ]
    (by decide) (by decide)
